import Mathlib

/-!
Verification of the pcom-go parser-combinator engine against its
natural-language specification.

The Go sources are shallowly embedded:

* `src/state/state.go` (value-receiver revision) and `src/state/position.go`
  become the `State`/`Position`/`Span` layer below.  Go strings are modelled
  as `List Char`, with offsets counting code points; this is faithful for the
  ASCII inputs all claims exercise (every byte is one code point).  Go `int`
  fields that never go negative in the embedded fragment are `Nat`; the one
  Go function that uses `-1` as a sentinel (`LineStartBeforeCurrentOffset`)
  returns `Int`.
* A Go expression that panics (out-of-range string index) is modelled by an
  `Option` result, `none` standing for the runtime panic.
* `src/parser/parser.go` (value-state revision) becomes the `GoParser` layer:
  a parser is a total function `State → GoResult T × GoError`, failure being
  signalled by a non-empty error message, exactly as the Go contract
  `Run(state) (Result[T], Error)` with `err.HasError()`.
* `src/parser/primitives.go` (pointer-state revision) becomes the `PParser`
  layer: a pointer parser maps the state the caller's pointer designates to
  the state left in that variable after the call, together with the returned
  `(Result, Error)` pair.
* Loops of the Go sources that need not terminate (`Many0`, `Many1`,
  `ManyTill`) are embedded with an explicit fuel argument; exhausting the
  fuel yields `none`, so a result `some r` for some fuel asserts that the Go
  loop terminates with `r`.
-/

namespace Pcom

/-- Position from src/state/position.go: byte offset plus 1-indexed line and
column. -/
structure Position where
  offset : Nat
  line : Nat
  column : Nat
deriving DecidableEq, Repr

/-- Span from src/state/state.go: a start/end pair of positions.  Go's field
name End is a Lean keyword, hence stop. -/
structure Span where
  start : Position
  stop : Position
deriving DecidableEq, Repr

/-- State from src/state/state.go: the shared input, the cursor fields and
the precomputed line-start offsets. -/
structure State where
  input : List Char
  offset : Nat
  line : Nat
  column : Nat
  lineStarts : List Nat
deriving DecidableEq, Repr

/-- The zero value of Position (Go zero struct). -/
def zeroPosition : Position := ⟨0, 0, 0⟩

/-- The zero value of Span (Go zero struct). -/
def zeroSpan : Span := ⟨zeroPosition, zeroPosition⟩

/-- The zero value of State (Go zero struct: empty string, zero ints, nil
slice). -/
def zeroState : State := ⟨[], 0, 0, 0, []⟩

/-- NewPositionFromState from src/state/position.go. -/
def NewPositionFromState (s : State) : Position :=
  ⟨s.offset, s.line, s.column⟩

/-- State.InBounds from src/state/state.go: offset < len(input). -/
def State.InBounds (s : State) (offset : Nat) : Bool :=
  offset < s.input.length

/-- isNewLineChar from src/state/state.go. -/
def isNewLineChar (c : Char) : Bool :=
  c == '\r' || c == '\n'

/-- The boolean the Go isCRLF computes when its first index is in bounds:
input[offset] == CR and the next byte exists and is LF. -/
def crlfAt (s : State) : Bool :=
  s.input.getD s.offset (Char.ofNat 0) == '\r' &&
    (decide (s.offset + 1 < s.input.length) &&
      (s.input.getD (s.offset + 1) (Char.ofNat 0) == '\n'))

/-- isCRLF from src/state/state.go.  Go indexes s.Input[s.Offset] before any
bounds check, so the call panics when the offset is at or past the end of
input; the panic is modelled as none. -/
def isCRLF (s : State) : Option Bool :=
  if s.offset < s.input.length then some (crlfAt s) else none

/-- State.UpdatePosition from src/state/state.go: restore offset, column and
line from a Position. -/
def State.UpdatePosition (s : State) (pos : Position) : State :=
  { s with offset := pos.offset, column := pos.column, line := pos.line }

/-- State.UpdateOffset from src/state/state.go. -/
def State.UpdateOffset (s : State) (n : Nat) : State :=
  { s with offset := s.offset + n }

/-- State.UpdateColumn from src/state/state.go: adds n to the column, then to
the offset. -/
def State.UpdateColumn (s : State) (n : Nat) : State :=
  State.UpdateOffset { s with column := s.column + n } n

/-- The body of the skip loop at the top of ProgressLine
(src/state/state.go): advance the offset while it is in bounds and neither a
CR-LF pair nor a lone LF starts there.  Inside the loop the isCRLF call is
guarded by InBounds, so no panic can occur here.  The loop gains one offset
per iteration and stops once the offset reaches the input length, so the
explicit bound len(input) - offset covers it exactly: when the bound hits
zero the guard is false as well, and both return the state unchanged. -/
def progressLineSkipF : Nat → State → State
  | 0, s => s
  | fuel + 1, s =>
      if s.InBounds s.offset && !crlfAt s &&
          !(s.input.getD s.offset (Char.ofNat 0) == '\n') then
        progressLineSkipF fuel (s.UpdateOffset 1)
      else
        s

/-- The skip loop of ProgressLine with its exact iteration bound supplied. -/
def progressLineSkip (s : State) : State :=
  progressLineSkipF (s.input.length - s.offset) s

/-- State.ProgressLine from src/state/state.go: run the skip loop, then test
isCRLF once more — this final test reads s.Input[s.Offset] unguarded and
panics (none) when the skip loop ran off the end of the input — and advance
the offset by 2 (CR-LF) or 1, increment the line and reset the column. -/
def ProgressLine (s : State) : Option State :=
  let s1 := progressLineSkip s
  match isCRLF s1 with
  | none => none
  | some b =>
      let s2 := if b then s1.UpdateOffset 2 else s1.UpdateOffset 1
      some { s2 with line := s2.line + 1, column := 1 }

/-- The loop of State.Consume (src/state/state.go), carrying the state, the
read index end and the remaining count n - consumed.  Returns the final
state, the final end index and how much of the count was left when the loop
exited; none propagates a panic from ProgressLine. -/
def consumeLoop (s : State) (endIdx : Nat) : Nat → Option (State × Nat × Nat)
  | 0 => some (s, endIdx, 0)
  | remaining + 1 =>
      if h : endIdx < s.input.length then
        let r := s.input.get ⟨endIdx, h⟩
        if isNewLineChar r then
          match ProgressLine s with
          | none => none
          | some s' => consumeLoop s' (endIdx + 1) remaining
        else
          consumeLoop (s.UpdateColumn 1) (endIdx + 1) remaining
      else
        some (s, endIdx, remaining + 1)

/-- Go slice s.Input[a:b] on the List Char model. -/
def sliceList (l : List Char) (a b : Nat) : List Char :=
  (l.drop a).take (b - a)

/-- State.Consume from src/state/state.go: all-or-nothing advance over n
code points.  Returns the consumed text, the consumed span, the success flag
and the resulting state; none models the panic that Go's ProgressLine can
raise from inside the loop. -/
def State.Consume (s : State) (n : Nat) : Option (List Char × Span × Bool × State) :=
  let startPos := NewPositionFromState s
  let start := startPos.offset
  match consumeLoop s start n with
  | none => none
  | some (s1, endIdx, rem) =>
      if rem > 0 then
        some ([], zeroSpan, false, s1.UpdatePosition startPos)
      else
        some (sliceList s.input start endIdx, ⟨startPos, NewPositionFromState s1⟩, true, s1)

/-- The line-start scan of NewState (src/state/state.go), embedded exactly:
the CR-LF branch tests input[i] == CR and input[i] == LF (as the source
does, making that branch unreachable), the LF branch records the offset
after the newline.  The loop advances i by at least one per iteration, so a
fuel of len(input) reproduces it exactly. -/
def newStateScan (input : List Char) : Nat → Nat → List Nat → List Nat
  | 0, _, acc => acc
  | fuel + 1, i, acc =>
      if h : i < input.length then
        let c := input.get ⟨i, h⟩
        if c == '\r' && (decide (i + 1 < input.length) && c == '\n') then
          newStateScan input fuel (i + 2) (acc ++ [i + 2])
        else if c == '\n' then
          newStateScan input fuel (i + 1) (acc ++ [i + 1])
        else
          newStateScan input fuel (i + 1) acc
      else
        acc

/-- NewState from src/state/state.go: precompute the line starts; for empty
input the line-start slice is empty. -/
def NewState (input : List Char) (position : Position) : State :=
  let lineStarts := newStateScan input input.length 0 [0]
  if input.length = 0 then
    ⟨input, position.offset, position.line, position.column, []⟩
  else
    ⟨input, position.offset, position.line, position.column, lineStarts⟩

/-- The binary-search loop of State.LineStartBeforeCurrentOffset
(src/state/state.go): classic lo/hi search over the line starts for the
given offset, returning hi (possibly -1) when no exact hit is found.  Each
iteration shrinks hi + 1 - lo by at least one, so a fuel of the initial
interval length reproduces the loop exactly; when the fuel runs out the
loop guard lo ≤ hi has just failed and both paths return hi. -/
def lssLoopF (ls : List Nat) (off : Nat) : Nat → Int → Int → Int
  | 0, _, hi => hi
  | fuel + 1, lo, hi =>
      if lo ≤ hi then
        let mid := lo + (hi - lo) / 2
        let v := ls.getD mid.toNat 0
        if v == off then mid
        else if v < off then lssLoopF ls off fuel (mid + 1) hi
        else lssLoopF ls off fuel lo (mid - 1)
      else
        hi

/-- State.LineStartBeforeCurrentOffset from src/state/state.go: index of the
last line start at or before the current offset (-1 when the offset precedes
every recorded line start), with the loop's iteration bound supplied. -/
def State.LineStartBeforeCurrentOffset (s : State) : Int :=
  lssLoopF s.lineStarts s.offset (s.lineStarts.length + 1) 0
    ((s.lineStarts.length : Int) - 1)

/-- The line-terminator search of GetSnippetStringFromCurrentContext: the
first index at or after start holding LF or CR, and 0 when there is none
(Go leaves the zero value in place). -/
def snippetFindEnd (input : List Char) (start : Nat) : Nat :=
  match (input.drop start).findIdx? (fun c => c == '\n' || c == '\r') with
  | some j => start + j
  | none => 0

/-- strings.TrimRight(lineContent, "\r\n") on the List Char model. -/
def trimRightCRLF (l : List Char) : List Char :=
  (l.reverse.dropWhile (fun c => c == '\r' || c == '\n')).reverse

/-- GetSnippetStringFromCurrentContext from src/state/state.go: the
newline-trimmed text of the line the offset lies on, falling back to the
whole input when the line-start index is empty, and to the whole remainder
when the zero sentinel of the end search survives. -/
def GetSnippetStringFromCurrentContext (s : State) : List Char :=
  if s.lineStarts.length = 0 then s.input
  else
    let idx0 := s.LineStartBeforeCurrentOffset
    let currentLineIndex := if idx0 < 0 then 0 else idx0
    let lineStartOffset := s.lineStarts.getD currentLineIndex.toNat 0
    let e0 := snippetFindEnd s.input lineStartOffset
    let lineEndOffset := if e0 = 0 then s.input.length else e0
    trimRightCRLF (sliceList s.input lineStartOffset lineEndOffset)

/-- The snippet as a Lean String, as stored in Error.Snippet. -/
def snippetStr (s : State) : String :=
  String.mk (GetSnippetStringFromCurrentContext s)

/-- Error from src/parser/error.go: message, expected, got, snippet,
position and an optional cause pointer.  A Lean structure cannot be
recursive, so the record is an inductive with one constructor. -/
inductive GoError : Type where
  | mk (message expected got snippet : String) (position : Position)
      (cause : Option GoError) : GoError

/-- The message field of an Error. -/
def GoError.message : GoError → String
  | .mk m _ _ _ _ _ => m

/-- The expected field of an Error. -/
def GoError.expected : GoError → String
  | .mk _ e _ _ _ _ => e

/-- The got field of an Error. -/
def GoError.got : GoError → String
  | .mk _ _ g _ _ _ => g

/-- The snippet field of an Error. -/
def GoError.snippet : GoError → String
  | .mk _ _ _ sn _ _ => sn

/-- The position field of an Error. -/
def GoError.position : GoError → Position
  | .mk _ _ _ _ p _ => p

/-- The cause field of an Error. -/
def GoError.cause : GoError → Option GoError
  | .mk _ _ _ _ _ c => c

/-- Error.HasError from src/parser/error.go: a non-empty message means
failure. -/
def GoError.hasError (e : GoError) : Bool :=
  e.message != ""

/-- The zero Error value, the canonical no-error sentinel Error{}. -/
def noError : GoError :=
  .mk "" "" "" "" zeroPosition none

/-- Go zero values per element type, used where the source returns a zero
Result[T]{}. -/
class GoZero (T : Type) where
  zero : T

instance : GoZero Char := ⟨Char.ofNat 0⟩

instance : GoZero String := ⟨""⟩

instance : GoZero (List T) := ⟨[]⟩

instance : GoZero Unit := ⟨()⟩

/-- Result[T] from src/parser/parser.go: value, next state and consumed
span. -/
structure GoResult (T : Type) where
  value : T
  nextState : State
  span : Span
deriving DecidableEq

/-- The zero Result[T]{}: zero value, zero State, zero Span. -/
def zeroResult [GoZero T] : GoResult T :=
  ⟨GoZero.zero, zeroState, zeroSpan⟩

/-- Parser[T] from src/parser/parser.go (value-state revision): Run maps a
state to a Result and an Error; the state argument is passed by value, so a
sub-parser call never affects the caller's copy. -/
structure GoParser (T : Type) where
  run : State → GoResult T × GoError
  label : String

/-- The error the embedding returns where the Go code would panic inside a
state operation; no parser of this file reaches it on the inputs the claims
evaluate. -/
def panicError : GoError :=
  .mk "panic: runtime error: index out of range" "" "" "" zeroPosition none

/-- RuneParser from src/parser/parser.go: EOF check, byte comparison at the
offset, then Consume(1) on the local copy of the state. -/
def RuneParser (label : String) (c : Char) : GoParser Char :=
  ⟨fun curState =>
    if !(curState.InBounds curState.offset) then
      (zeroResult,
        .mk "Reached the end of file while parsing" (String.mk [c]) "EOF"
          (snippetStr curState) (NewPositionFromState curState) none)
    else if curState.input.getD curState.offset (Char.ofNat 0) == c then
      let prev := NewPositionFromState curState
      match curState.Consume 1 with
      | some (_, _, _, s') =>
          (⟨c, s', ⟨prev, NewPositionFromState s'⟩⟩, noError)
      | none => (zeroResult, panicError)
    else
      (zeroResult,
        .mk ("Failed to parse " ++ label) (String.mk [c])
          (String.mk [curState.input.getD curState.offset (Char.ofNat 0)])
          (snippetStr curState) (NewPositionFromState curState) none),
   label⟩

/-- The loop of Or (src/parser/parser.go): try each alternative on the same
state, remember the last error; when the alternatives are exhausted, build
the Or failure from the last error and the current state.  Its cause field
is left at the zero value: the source does not chain the last error. -/
def orLoop [GoZero T] (ps : List (GoParser T)) (curState : State)
    (lastErr : GoError) : GoResult T × GoError :=
  match ps with
  | [] =>
      (zeroResult,
        .mk "Or combinator failed" lastErr.expected lastErr.got
          (snippetStr curState) lastErr.position none)
  | p :: rest =>
      let (res, err) := p.run curState
      if err.hasError then orLoop rest curState err
      else (res, noError)

/-- Or from src/parser/parser.go. -/
def Or [GoZero T] (label : String) (ps : List (GoParser T)) : GoParser T :=
  ⟨fun curState => orLoop ps curState noError, label⟩

/-- The loop of And (src/parser/parser.go): run every sub-parser on the same
state, keep the last result, abort with a wrapped error on the first
failure. -/
def andLoop [GoZero T] (ps : List (GoParser T)) (curState : State)
    (lastRes : GoResult T) : GoResult T × GoError :=
  match ps with
  | [] => (lastRes, noError)
  | p :: rest =>
      let (res, err) := p.run curState
      if err.hasError then
        (zeroResult,
          .mk "And combinator failed." err.expected err.got
            (snippetStr curState) err.position none)
      else andLoop rest curState res

/-- And from src/parser/parser.go. -/
def And [GoZero T] (label : String) (ps : List (GoParser T)) : GoParser T :=
  ⟨fun curState => andLoop ps curState zeroResult, label⟩

/-- The shared repetition loop of Many0 and Many1 (src/parser/parser.go):
run p, stop at its first failure, otherwise append the value and continue
from the result's next state.  The Go loop has no exit besides p failing;
the fuel argument makes the embedding total, none standing for a run that
does not finish within the given budget. -/
def manyLoop (p : GoParser T) : Nat → State → List T → Option (List T × State)
  | fuel, curState, results =>
      let (res, err) := p.run curState
      if err.hasError then some (results, curState)
      else
        match fuel with
        | 0 => none
        | fuel + 1 => manyLoop p fuel res.nextState (results ++ [res.value])

/-- Many0 from src/parser/parser.go: the repetition loop, then an
unconditional success carrying the accumulated values. -/
def Many0Run (label : String) (p : GoParser T) (fuel : Nat) (curState : State) :
    Option (GoResult (List T) × GoError) :=
  let originalState := curState
  match manyLoop p fuel curState [] with
  | none => none
  | some (results, finalState) =>
      some
        (⟨results, finalState,
          ⟨NewPositionFromState originalState, NewPositionFromState finalState⟩⟩,
         noError)

/-- Many1 from src/parser/parser.go: the same loop as Many0, then failure
when no iteration succeeded, the error being built from the unchanged
state. -/
def Many1Run (label : String) (p : GoParser T) (fuel : Nat) (curState : State) :
    Option (GoResult (List T) × GoError) :=
  let originalState := curState
  match manyLoop p fuel curState [] with
  | none => none
  | some (results, finalState) =>
      if results.length > 0 then
        some
          (⟨results, finalState,
            ⟨NewPositionFromState originalState, NewPositionFromState finalState⟩⟩,
           noError)
      else
        some
          (zeroResult,
           .mk "Many1 parser failed."
             ("<" ++ p.label ++ "> at least once")
             ("<" ++ p.label ++ "> zero times")
             (snippetStr finalState) (NewPositionFromState finalState) none)

/-- Optional from src/parser/parser.go: one attempt; on failure it returns
the zero Result and the zero Error, on success the sub-result unchanged. -/
def Optional [GoZero T] (label : String) (p : GoParser T) : GoParser T :=
  ⟨fun curState =>
    let (res, err) := p.run curState
    if err.hasError then (zeroResult, noError)
    else (res, noError), label⟩

/-- Pair[A, B] from src/parser/parser.go. -/
structure GoPair (A B : Type) where
  left : A
  right : B
deriving DecidableEq

instance [GoZero A] [GoZero B] : GoZero (GoPair A B) :=
  ⟨⟨GoZero.zero, GoZero.zero⟩⟩

/-- Then from src/parser/parser.go: run p1, then p2 from p1's next state,
pairing the values; each failure is wrapped with its own message, keeping
the sub-error's expected, got, snippet and position. -/
def Then [GoZero A] [GoZero B] (label : String) (p1 : GoParser A)
    (p2 : GoParser B) : GoParser (GoPair A B) :=
  ⟨fun curState =>
    let (leftRes, err) := p1.run curState
    if err.hasError then
      (zeroResult,
        .mk "Left of Then failed" err.expected err.got err.snippet
          err.position none)
    else
      let (rightRes, err2) := p2.run leftRes.nextState
      if err2.hasError then
        (zeroResult,
          .mk "Right of Then failed" err2.expected err2.got err2.snippet
            err2.position none)
      else
        (⟨⟨leftRes.value, rightRes.value⟩, rightRes.nextState,
          ⟨NewPositionFromState curState, NewPositionFromState rightRes.nextState⟩⟩,
         noError), label⟩

/-- KeepLeft from src/parser/parser.go: project a pair parser to its left
value, preserving the consumed span. -/
def KeepLeft [GoZero A] (label : String) (p : GoParser (GoPair A B)) :
    GoParser A :=
  ⟨fun curState =>
    let (res, err) := p.run curState
    if err.hasError then
      (zeroResult, .mk "KeepLeft failed." err.expected err.got "" err.position none)
    else
      (⟨res.value.left, res.nextState, res.span⟩, noError), label⟩

/-- KeepRight from src/parser/parser.go: project a pair parser to its right
value, preserving the consumed span. -/
def KeepRight [GoZero B] (label : String) (p : GoParser (GoPair A B)) :
    GoParser B :=
  ⟨fun curState =>
    let (res, err) := p.run curState
    if err.hasError then
      (zeroResult, .mk "KeepRight failed." err.expected err.got "" err.position none)
    else
      (⟨res.value.right, res.nextState, res.span⟩, noError), label⟩

/-- Between from src/parser/parser.go: KeepRight(Then(open,
KeepLeft(Then(content, close)))), failures wrapped once more. -/
def Between [GoZero L] [GoZero C] [GoZero R] (label : String)
    (po : GoParser L) (content : GoParser C) (pc : GoParser R) : GoParser C :=
  ⟨fun curState =>
    let left := KeepLeft "" (Then "" content pc)
    let right := KeepRight "" (Then "" po left)
    let (res, err) := right.run curState
    if err.hasError then
      (zeroResult,
        .mk "Between combinator failed." err.expected err.got "" err.position none)
    else (res, noError), label⟩

/-- Lazy from src/parser/parser.go: running the parser invokes the factory
(whose result the Go code caches in a one-time memo cell) and runs the built
parser; the factory is applied only inside run, never at construction. -/
def Lazy (label : String) (f : Unit → GoParser T) : GoParser T :=
  ⟨fun curState => (f ()).run curState, label⟩

/-- The parser for the letter of the recursive grammar of the Lazy test:
expr := letter | LPAREN expr RPAREN with letter matching the single code
point x. -/
def letterX : GoParser Char :=
  RuneParser "x" 'x'

/-- The open-parenthesis parser of the recursive grammar. -/
def lparenP : GoParser Char :=
  RuneParser "(" '('

/-- The close-parenthesis parser of the recursive grammar. -/
def rparenP : GoParser Char :=
  RuneParser ")" ')'

/-- The error the fuel-indexed grammar returns when its unfolding budget is
exhausted; the theorems about the grammar hold for every budget beyond the
input's nesting depth, so this value never surfaces there. -/
def budgetSpent : GoError :=
  .mk "recursion budget exhausted" "" "" "" zeroPosition none

/-- The recursive grammar of the Lazy test (src/tests/parser_test.go,
TestLazyRecursive): parens = Lazy(fun _ => Or(letter, Between(LPAREN,
parens, RPAREN))).  The Go closure refers to the parser being defined; the
embedding replaces that self-reference by a fuel index bounding how often
the Lazy factory may unfold, which is exactly the recursion depth the Go
execution uses. -/
def exprGrammar : Nat → GoParser Char
  | 0 => ⟨fun _ => (zeroResult, budgetSpent), "paren expr"⟩
  | n + 1 =>
      Lazy "paren expr" (fun _ =>
        Or "paren expression"
          [letterX, Between "in parens" lparenP (exprGrammar n) rparenP])

/-- A pointer-revision parser (src/parser/primitives.go): Run receives a
pointer to the caller's state; the embedding maps the state that pointer
designates at entry to the state it designates at return, together with the
returned Result and Error. -/
structure PParser (T : Type) where
  run : State → State × GoResult T × GoError
  label : String

/-- Modelled from the spec: save() captures a Position checkpoint
atomically (§4.1); the state.go revision defining it is not in the
snapshot, only its callers in src/parser/primitives.go are. -/
def State.Save (s : State) : Position :=
  NewPositionFromState s

/-- Modelled from the spec: rollback(pos) restores a saved Position
checkpoint atomically, offset, line and column together (§4.1); the
state.go revision defining it is not in the snapshot. -/
def State.Rollback (s : State) (pos : Position) : State :=
  s.UpdatePosition pos

/-- The loop of ManyTill (src/parser/primitives.go): while the offset is in
bounds, save a checkpoint, probe end — on its success roll the probe back
and succeed with the accumulated values — otherwise run p, on whose failure
roll back and fail with p's error as cause; when the offset leaves the
input, succeed with whatever accumulated.  The Go loop has no intrinsic
bound, so the embedding carries fuel; none means the budget ran out. -/
def manyTillLoop (p : PParser A) (endp : PParser B) (initialPos : Position) :
    Nat → State → List A → Option (State × GoResult (List A) × GoError)
  | fuel, curState, ret =>
      if curState.InBounds curState.offset then
        match fuel with
        | 0 => none
        | fuel + 1 =>
            let cp := curState.Save
            let (s1, _, endErr) := endp.run curState
            if !endErr.hasError then
              let s2 := s1.Rollback cp
              some (s2, ⟨ret, s2, ⟨cp, NewPositionFromState s2⟩⟩, noError)
            else
              let (s2, res, pErr) := p.run s1
              if pErr.hasError then
                let s3 := s2.Rollback cp
                some (s3, zeroResult,
                  .mk "ManyTill parser failed." pErr.expected pErr.got
                    pErr.snippet pErr.position (some pErr))
              else
                manyTillLoop p endp initialPos fuel res.nextState (ret ++ [res.value])
      else
        some (curState, ⟨ret, curState, ⟨initialPos, NewPositionFromState curState⟩⟩,
          noError)

/-- ManyTill from src/parser/primitives.go, with the fuel of its embedded
loop made explicit. -/
def ManyTill (label : String) (p : PParser A) (endp : PParser B) (fuel : Nat)
    (curState : State) : Option (State × GoResult (List A) × GoError) :=
  manyTillLoop p endp (NewPositionFromState curState) fuel curState []

/-- A concrete pointer-revision parser used to instantiate the quantified
theorems: it matches one exact non-newline code point, consuming it through
UpdateColumn exactly as CharWhere's Consume does for a one-byte non-newline
rune, and restores nothing because it moves nothing on failure. -/
def pCharP (c : Char) : PParser Char :=
  ⟨fun s =>
    if h : s.offset < s.input.length then
      if s.input.get ⟨s.offset, h⟩ == c then
        let cp := s.Save
        let s' := s.UpdateColumn 1
        (s', ⟨c, s', ⟨cp, s'.Save⟩⟩, noError)
      else
        (s, ⟨GoZero.zero, s, zeroSpan⟩,
          .mk "no match" (String.mk [c]) (String.mk [s.input.get ⟨s.offset, h⟩])
            "" (NewPositionFromState s) none)
    else
      (s, ⟨GoZero.zero, s, zeroSpan⟩,
        .mk "no match" (String.mk [c]) "EOF" "" (NewPositionFromState s) none),
   "pchar"⟩


/-- The cursor standing at the start of the CR-LF pair of
line1 CR LF line2, as NewState followed by Consume(5) would leave it. -/
def c2s5 : State := ⟨"line1\r\nline2".toList, 5, 1, 6, [0, 7]⟩

/-- The state over the one-byte input CR at its start. -/
def c7state : State := NewState "\r".toList ⟨0, 1, 1⟩

/-- The state over input abc at its start. -/
def c5state : State := NewState "abc".toList ⟨0, 1, 1⟩

/-- The state over input abc at its start, for the Optional claim. -/
def c3state : State := NewState "abc".toList ⟨0, 1, 1⟩

/-- The state over the one-byte input b at its start. -/
def c1state : State := NewState "b".toList ⟨0, 1, 1⟩

/-- The state over input ab at its start. -/
def c1wstate : State := NewState "ab".toList ⟨0, 1, 1⟩

/-- A concrete parser used to instantiate the termination half of the Many0
claim: it consumes exactly one code point whenever one remains and fails at
end of input. -/
def strictAdvanceP : GoParser Char :=
  ⟨fun s =>
    if h : s.offset < s.input.length then
      (⟨s.input.get ⟨s.offset, h⟩,
        { s with offset := s.offset + 1, column := s.column + 1 }, zeroSpan⟩, noError)
    else
      (zeroResult, .mk "EOF" "any code point" "EOF" "" (NewPositionFromState s) none),
   "one code point"⟩

/-- The state over input aaa at its start. -/
def c9state : State := NewState "aaa".toList ⟨0, 1, 1⟩

/-- The end-of-input state the concrete ManyTill run of C10 stops in. -/
def c10endState : State := ⟨"aa".toList, 2, 1, 3, [0]⟩

/-- The state over input ;x at its start, where the terminator matches
immediately. -/
def c6aState : State := NewState ";x".toList ⟨0, 1, 1⟩

/-- The state over input zx at its start, where neither the terminator nor
p matches. -/
def c6bState : State := NewState "zx".toList ⟨0, 1, 1⟩

/-- The cursor of the run over the seven-byte input (((x))) at offset k. -/
def c8tState (k : Nat) : State := ⟨"(((x)))".toList, k, 1, k + 1, [0]⟩

/-- The cursor of the run over the five-byte input ((y)) at offset k. -/
def c8uState (k : Nat) : State := ⟨"((y))".toList, k, 1, k + 1, [0]⟩

/-- The no-error sentinel reports no failure. -/
@[simp] theorem hasError_noError : noError.hasError = false := rfl

/-- hasError of a literal Error is the non-emptiness of its message. -/
@[simp] theorem hasError_mk (m e g sn : String) (p : Position)
    (c : Option GoError) : (GoError.mk m e g sn p c).hasError = (m != "") := rfl

/-- The expected field of a literal Error. -/
@[simp] theorem expected_mk (m e g sn : String) (p : Position)
    (c : Option GoError) : (GoError.mk m e g sn p c).expected = e := rfl

/-- The got field of a literal Error. -/
@[simp] theorem got_mk (m e g sn : String) (p : Position)
    (c : Option GoError) : (GoError.mk m e g sn p c).got = g := rfl

/-- The snippet field of a literal Error. -/
@[simp] theorem snippet_mk (m e g sn : String) (p : Position)
    (c : Option GoError) : (GoError.mk m e g sn p c).snippet = sn := rfl

/-- The position field of a literal Error. -/
@[simp] theorem position_mk (m e g sn : String) (p : Position)
    (c : Option GoError) : (GoError.mk m e g sn p c).position = p := rfl

/-- The cause field of a literal Error. -/
@[simp] theorem cause_mk (m e g sn : String) (p : Position)
    (c : Option GoError) : (GoError.mk m e g sn p c).cause = c := rfl

/-- C2: starting from offset 0, line 1, column 1 on line1 CR LF line2,
consuming past the CR-LF line break (six code points: the five letters and
the line terminator) leaves the cursor at offset 7, line 2, column 1; and
whenever the cursor stands on a CR-LF pair, ProgressLine advances the
offset by exactly 2, increments the line and resets the column to 1. -/
theorem c2_crlf_tracking :
    State.Consume (NewState "line1\r\nline2".toList ⟨0, 1, 1⟩) 6 =
      some ("line1\r".toList, ⟨⟨0, 1, 1⟩, ⟨7, 2, 1⟩⟩, true,
        ⟨"line1\r\nline2".toList, 7, 2, 1, [0, 7]⟩) ∧
    ∀ s : State, isCRLF s = some true →
      ProgressLine s =
        some { s with offset := s.offset + 2, line := s.line + 1, column := 1 } := by
  constructor
  · rfl
  · intro s h
    have hb : s.offset < s.input.length := by
      unfold isCRLF at h
      by_cases hb : s.offset < s.input.length
      · exact hb
      · simp [hb] at h
    have hcr : crlfAt s = true := by
      unfold isCRLF at h
      simp [hb] at h
      exact h
    have hskip : progressLineSkip s = s := by
      unfold progressLineSkip
      cases hfe : s.input.length - s.offset with
      | zero => rfl
      | succ k => simp [progressLineSkipF, hcr]
    simp only [ProgressLine, hskip, h]
    simp [State.UpdateOffset]

/-- Witness for C2: the CR-LF branch of ProgressLine evaluated on the
cursor standing at offset 5 of line1 CR LF line2. -/
theorem c2_crlf_tracking_witness :
    isCRLF c2s5 = some true ∧
    ProgressLine c2s5 =
      some { c2s5 with offset := c2s5.offset + 2, line := c2s5.line + 1, column := 1 } :=
  ⟨by decide, c2_crlf_tracking.2 c2s5 (by decide)⟩

/-- C7 is a code bug: Consume(1) on the input consisting of a single CR is
neither a success nor a clean failure — the Go code panics (index out of
range: ProgressLine's trailing isCRLF test reads s.Input[s.Offset] with the
offset already past the end), modelled here as none.  The all-or-nothing
contract of the claim and of §4.1/§7 of the spec admits no such outcome. -/
theorem c7_consume_panic : State.Consume c7state 1 = none := rfl

/-- C5: when p fails at once from s — that is, p does not succeed even once
— Many1 fails for every fuel budget, and the error it builds reports the
unchanged starting position of the cursor (the value-passed caller state is
untouched by construction). -/
theorem c5_many1_zero_success (T : Type) [GoZero T] (label : String)
    (p : GoParser T) (fuel : Nat) (s : State)
    (h : ((p.run s).2).hasError = true) :
    Many1Run label p fuel s =
      some (zeroResult,
        .mk "Many1 parser failed." ("<" ++ p.label ++ "> at least once")
          ("<" ++ p.label ++ "> zero times") (snippetStr s)
          (NewPositionFromState s) none) := by
  rcases hrun : p.run s with ⟨res, err⟩
  rw [hrun] at h
  simp [Many1Run, manyLoop, hrun, h]

/-- Witness for C5: Many1 over the single-code-point parser for x fails on
abc with the error positioned at offset 0, line 1, column 1. -/
theorem c5_many1_zero_success_witness :
    ((RuneParser "x" 'x').run c5state).2.hasError = true ∧
    Many1Run "many1 of x" (RuneParser "x" 'x') 3 c5state =
      some (zeroResult,
        .mk "Many1 parser failed." "<x> at least once" "<x> zero times"
          (snippetStr c5state) ⟨0, 1, 1⟩ none) :=
  ⟨by decide,
   c5_many1_zero_success Char "many1 of x" (RuneParser "x" 'x') 3 c5state (by decide)⟩

/-- C3 counterexample: Optional of a failing parser does succeed with no
error, but the Result it returns is the zero Result, whose NextState is the
zero State — not the original state s, which the claim asserts. -/
theorem c3_optional_counterexample :
    ((RuneParser "x" 'x').run c3state).2.hasError = true ∧
    ((Optional "optional x" (RuneParser "x" 'x')).run c3state).1.nextState ≠ c3state ∧
    ((Optional "optional x" (RuneParser "x" 'x')).run c3state).1.nextState = zeroState := by
  refine ⟨by decide, by decide, rfl⟩

/-- C3 as amended: Optional(label, p).Run(s) never returns an error; when p
fails from s it succeeds with the zero payload and no error, but its next
state is the zero State rather than the original state s. -/
theorem c3_optional_never_errors (T : Type) [GoZero T] (label : String)
    (p : GoParser T) (s : State) :
    (((Optional label p).run s).2).hasError = false ∧
    (((p.run s).2).hasError = true →
      (Optional label p).run s = (zeroResult, noError)) := by
  rcases hrun : p.run s with ⟨res, err⟩
  constructor
  · cases h : err.hasError <;> simp [Optional, hrun, h]
  · intro h
    simp only [hasError_mk] at h
    simp [Optional, hrun, h]

/-- Witness for C3: Optional of a parser failing on abc returns the zero
Result and the zero Error. -/
theorem c3_optional_never_errors_witness :
    ((RuneParser "z" 'z').run c3state).2.hasError = true ∧
    (Optional "optional z" (RuneParser "z" 'z')).run c3state = (zeroResult, noError) :=
  ⟨by decide,
   (c3_optional_never_errors Char "optional z" (RuneParser "z" 'z') c3state).2 (by decide)⟩

/-- One Or iteration on a failing alternative: the loop moves on, carrying
that alternative's error as the new last error. -/
theorem orLoop_cons_fail (T : Type) [GoZero T] (p : GoParser T)
    (rest : List (GoParser T)) (s : State) (e : GoError)
    (h : ((p.run s).2).hasError = true) :
    orLoop (p :: rest) s e = orLoop rest s (p.run s).2 := by
  rcases hrun : p.run s with ⟨res, err⟩
  rw [hrun] at h
  simp only [Prod.snd] at h
  simp [orLoop, hrun, h]

/-- One Or iteration on a succeeding alternative: the loop returns that
alternative's result with the zero error. -/
theorem orLoop_cons_success (T : Type) [GoZero T] (p : GoParser T)
    (rest : List (GoParser T)) (s : State) (e : GoError)
    (h : ((p.run s).2).hasError = false) :
    orLoop (p :: rest) s e = ((p.run s).1, noError) := by
  rcases hrun : p.run s with ⟨res, err⟩
  rw [hrun] at h
  simp only [Prod.snd] at h
  simp [orLoop, hrun, h]

/-- When every alternative before p fails and p succeeds, the Or loop
returns p's result, whatever error it was carrying. -/
theorem orLoop_first_success (T : Type) [GoZero T] (pre : List (GoParser T)) :
    ∀ (post : List (GoParser T)) (p : GoParser T) (s : State) (e : GoError),
      (∀ q ∈ pre, ((q.run s).2).hasError = true) →
      ((p.run s).2).hasError = false →
      orLoop (pre ++ p :: post) s e = ((p.run s).1, noError) := by
  induction pre with
  | nil =>
      intro post p s e _ hp
      simpa using orLoop_cons_success T p post s e hp
  | cons q qs ih =>
      intro post p s e hq hp
      rw [List.cons_append, orLoop_cons_fail T q (qs ++ p :: post) s e
        (hq q (List.mem_cons_self q qs))]
      exact ih post p s _ (fun r hr => hq r (List.mem_cons_of_mem q hr)) hp

/-- When every alternative fails, the Or loop returns the combinator error
built from the final alternative's error and the unchanged state. -/
theorem orLoop_all_fail (T : Type) [GoZero T] (qs : List (GoParser T)) :
    ∀ (plast : GoParser T) (s : State) (e : GoError),
      (∀ q ∈ qs, ((q.run s).2).hasError = true) →
      ((plast.run s).2).hasError = true →
      orLoop (qs ++ [plast]) s e =
        (zeroResult,
          .mk "Or combinator failed" ((plast.run s).2).expected
            ((plast.run s).2).got (snippetStr s) ((plast.run s).2).position none) := by
  induction qs with
  | nil =>
      intro plast s e _ hp
      rw [List.nil_append, orLoop_cons_fail T plast [] s e hp]
      simp [orLoop]
  | cons q qs ih =>
      intro plast s e hq hp
      rw [List.cons_append, orLoop_cons_fail T q (qs ++ [plast]) s e
        (hq q (List.mem_cons_self q qs))]
      exact ih plast s _ (fun r hr => hq r (List.mem_cons_of_mem q hr)) hp

/-- C1 counterexample: when every alternative fails, the error Or returns
carries no cause at all — its cause chain is empty — so it is not an Error
caused by the last attempted alternative's error, which itself is a real
failure here. -/
theorem c1_or_cause_counterexample :
    ((Or "alternatives" [RuneParser "a" 'a']).run c1state).2.hasError = true ∧
    ((RuneParser "a" 'a').run c1state).2.hasError = true ∧
    ((Or "alternatives" [RuneParser "a" 'a']).run c1state).2.cause = none :=
  ⟨by decide, by decide, rfl⟩

/-- C1 as amended: Or tries each alternative from the same starting state
in order and returns the first success untouched, even when a later
alternative would also match; when every alternative fails it returns a new
Error copying the last attempted alternative's expected, got and position
(with a fresh snippet from the starting state), but with an empty cause
chain rather than the last error as cause. -/
theorem c1_or_first_match (T : Type) [GoZero T] :
    (∀ (label : String) (pre post : List (GoParser T)) (p : GoParser T) (s : State),
      (∀ q ∈ pre, ((q.run s).2).hasError = true) →
      ((p.run s).2).hasError = false →
      (Or label (pre ++ p :: post)).run s = ((p.run s).1, noError)) ∧
    (∀ (label : String) (qs : List (GoParser T)) (plast : GoParser T) (s : State),
      (∀ q ∈ qs, ((q.run s).2).hasError = true) →
      ((plast.run s).2).hasError = true →
      (Or label (qs ++ [plast])).run s =
        (zeroResult,
          .mk "Or combinator failed" ((plast.run s).2).expected
            ((plast.run s).2).got (snippetStr s) ((plast.run s).2).position none)) := by
  constructor
  · intro label pre post p s hq hp
    simpa [Or] using orLoop_first_success T pre post p s noError hq hp
  · intro label qs plast s hq hp
    simpa [Or] using orLoop_all_fail T qs plast s noError hq hp

/-- Witness for C1: on input ab, the first of two alternatives both
matching a wins, and when both alternatives fail the Or error copies the
last alternative's expected, got and position. -/
theorem c1_or_first_match_witness :
    ((RuneParser "second a" 'a').run c1wstate).2.hasError = false ∧
    (Or "alternatives" ([] ++ RuneParser "first a" 'a' :: [RuneParser "second a" 'a'])).run c1wstate =
      (((RuneParser "first a" 'a').run c1wstate).1, noError) ∧
    (Or "alternatives" ([RuneParser "x" 'x'] ++ [RuneParser "y" 'y'])).run c1wstate =
      (zeroResult,
        .mk "Or combinator failed" (((RuneParser "y" 'y').run c1wstate).2).expected
          (((RuneParser "y" 'y').run c1wstate).2).got (snippetStr c1wstate)
          (((RuneParser "y" 'y').run c1wstate).2).position none) :=
  ⟨by decide,
   (c1_or_first_match Char).1 "alternatives" [] [RuneParser "second a" 'a']
     (RuneParser "first a" 'a') c1wstate (by intro q hq; exact absurd hq (List.not_mem_nil q))
     (by decide),
   (c1_or_first_match Char).2 "alternatives" [RuneParser "x" 'x'] (RuneParser "y" 'y')
     c1wstate
     (by intro q hq; rcases List.mem_singleton.mp hq with rfl; decide)
     (by decide)⟩

/-- One And iteration on a succeeding sub-parser: the loop continues with
that sub-parser's result as the new last result. -/
theorem andLoop_cons_success (T : Type) [GoZero T] (p : GoParser T)
    (rest : List (GoParser T)) (s : State) (acc : GoResult T)
    (h : ((p.run s).2).hasError = false) :
    andLoop (p :: rest) s acc = andLoop rest s (p.run s).1 := by
  rcases hrun : p.run s with ⟨res, err⟩
  rw [hrun] at h
  simp only [Prod.snd] at h
  simp [andLoop, hrun, h]

/-- One And iteration on a failing sub-parser: the loop aborts with the
combinator error built from that failure and the unchanged state. -/
theorem andLoop_cons_fail (T : Type) [GoZero T] (p : GoParser T)
    (rest : List (GoParser T)) (s : State) (acc : GoResult T)
    (h : ((p.run s).2).hasError = true) :
    andLoop (p :: rest) s acc =
      (zeroResult,
        .mk "And combinator failed." ((p.run s).2).expected ((p.run s).2).got
          (snippetStr s) ((p.run s).2).position none) := by
  rcases hrun : p.run s with ⟨res, err⟩
  rw [hrun] at h
  simp only [Prod.snd] at h
  simp [andLoop, hrun, h]

/-- When every sub-parser succeeds at the shared state, the And loop
returns the final sub-parser's result, whatever result it was carrying. -/
theorem andLoop_all_success (T : Type) [GoZero T] (qs : List (GoParser T)) :
    ∀ (plast : GoParser T) (s : State) (acc : GoResult T),
      (∀ q ∈ qs ++ [plast], ((q.run s).2).hasError = false) →
      andLoop (qs ++ [plast]) s acc = ((plast.run s).1, noError) := by
  induction qs with
  | nil =>
      intro plast s acc hq
      rw [List.nil_append,
        andLoop_cons_success T plast [] s acc (hq plast (List.mem_singleton_self plast))]
      simp [andLoop]
  | cons q qs ih =>
      intro plast s acc hq
      rw [List.cons_append, andLoop_cons_success T q (qs ++ [plast]) s acc
        (hq q (List.mem_cons_self q (qs ++ [plast])))]
      exact ih plast s _ (fun r hr => hq r (List.mem_cons_of_mem q hr))

/-- When every sub-parser before p succeeds and p fails, the And loop
aborts with the error built from p's failure at the shared state. -/
theorem andLoop_first_fail (T : Type) [GoZero T] (pre : List (GoParser T)) :
    ∀ (post : List (GoParser T)) (p : GoParser T) (s : State) (acc : GoResult T),
      (∀ q ∈ pre, ((q.run s).2).hasError = false) →
      ((p.run s).2).hasError = true →
      andLoop (pre ++ p :: post) s acc =
        (zeroResult,
          .mk "And combinator failed." ((p.run s).2).expected ((p.run s).2).got
            (snippetStr s) ((p.run s).2).position none) := by
  induction pre with
  | nil =>
      intro post p s acc _ hp
      simpa using andLoop_cons_fail T p post s acc hp
  | cons q qs ih =>
      intro post p s acc hq hp
      rw [List.cons_append, andLoop_cons_success T q (qs ++ p :: post) s acc
        (hq q (List.mem_cons_self q qs))]
      exact ih post p s _ (fun r hr => hq r (List.mem_cons_of_mem q hr)) hp

/-- C4: And evaluates every sub-parser at the same original, unadvanced
state (each iteration runs on the state And itself received), aborts on the
first failing sub-parser with an error built from that failure at the
original state, and when all succeed returns the final sub-parser's result
as obtained from the original state. -/
theorem c4_and_same_position (T : Type) [GoZero T] :
    (∀ (label : String) (qs : List (GoParser T)) (plast : GoParser T) (s : State),
      (∀ q ∈ qs ++ [plast], ((q.run s).2).hasError = false) →
      (And label (qs ++ [plast])).run s = ((plast.run s).1, noError)) ∧
    (∀ (label : String) (pre post : List (GoParser T)) (p : GoParser T) (s : State),
      (∀ q ∈ pre, ((q.run s).2).hasError = false) →
      ((p.run s).2).hasError = true →
      (And label (pre ++ p :: post)).run s =
        (zeroResult,
          .mk "And combinator failed." ((p.run s).2).expected ((p.run s).2).got
            (snippetStr s) ((p.run s).2).position none)) := by
  constructor
  · intro label qs plast s hq
    simpa [And] using andLoop_all_success T qs plast s zeroResult hq
  · intro label pre post p s hq hp
    simpa [And] using andLoop_first_fail T pre post p s zeroResult hq hp

/-- Witness for C4: on input ab, And of two parsers for a yields the second
parser's result, which still starts at offset 0 — both ran at the original
position; and And of the a-parser followed by a b-parser fails, the
b-parser having been tried at the original offset 0 where it saw a, not at
offset 1. -/
theorem c4_and_same_position_witness :
    (And "both" ([RuneParser "first a" 'a'] ++ [RuneParser "second a" 'a'])).run c1wstate =
      (((RuneParser "second a" 'a').run c1wstate).1, noError) ∧
    (((RuneParser "second a" 'a').run c1wstate).1).nextState.offset = 1 ∧
    (And "a then b" ([RuneParser "a" 'a'] ++ RuneParser "b" 'b' :: [])).run c1wstate =
      (zeroResult,
        .mk "And combinator failed." (((RuneParser "b" 'b').run c1wstate).2).expected
          (((RuneParser "b" 'b').run c1wstate).2).got (snippetStr c1wstate)
          (((RuneParser "b" 'b').run c1wstate).2).position none) ∧
    (((RuneParser "b" 'b').run c1wstate).2).got = "a" :=
  ⟨(c4_and_same_position Char).1 "both" [RuneParser "first a" 'a']
     (RuneParser "second a" 'a') c1wstate
     (by intro q hq; rcases List.mem_cons.mp hq with rfl | h2
         · decide
         · rcases List.mem_singleton.mp h2 with rfl; decide),
   by decide,
   (c4_and_same_position Char).2 "a then b" [RuneParser "a" 'a'] []
     (RuneParser "b" 'b') c1wstate
     (by intro q hq; rcases List.mem_singleton.mp hq with rfl; decide)
     (by decide),
   by decide⟩

/-- One-step unfolding of the repetition loop, proved by cases on the fuel
so later proofs can rewrite one iteration at a time. -/
theorem manyLoop_eq (T : Type) [GoZero T] (p : GoParser T) (fuel : Nat)
    (s : State) (acc : List T) :
    manyLoop p fuel s acc =
      (let (res, err) := p.run s
       if err.hasError then some (acc, s)
       else
         match fuel with
         | 0 => none
         | fuel + 1 => manyLoop p fuel res.nextState (acc ++ [res.value])) := by
  cases fuel <;> rfl

/-- The repetition loop finishes within any fuel exceeding the remaining
input length, provided every success of p strictly advances the offset
while respecting the cursor invariants of §3 (offset at most the input
length, input untouched). -/
theorem manyLoop_terminates (T : Type) [GoZero T] (p : GoParser T)
    (hadv : ∀ s' : State, ((p.run s').2).hasError = false →
      s'.offset < ((p.run s').1).nextState.offset ∧
      ((p.run s').1).nextState.offset ≤ s'.input.length ∧
      ((p.run s').1).nextState.input = s'.input) :
    ∀ (fuel : Nat) (s : State) (acc : List T),
      s.input.length - s.offset < fuel → (manyLoop p fuel s acc).isSome = true := by
  intro fuel
  induction fuel with
  | zero => intro s acc h; omega
  | succ k ih =>
      intro s acc h
      rcases hrun : p.run s with ⟨res, err⟩
      rw [manyLoop_eq]
      cases herr : err.hasError with
      | true => simp [hrun, herr]
      | false =>
          have hh := hadv s (by rw [hrun]; simpa using herr)
          rw [hrun] at hh
          simp only [Prod.fst, Prod.snd] at hh
          simp only [hrun, herr, Bool.false_eq_true, if_false]
          apply ih
          rw [hh.2.2]
          omega

/-- When p succeeds at s without moving the state at all, the repetition
loop runs forever: no fuel makes it return. -/
theorem manyLoop_diverges (T : Type) [GoZero T] (p : GoParser T) (s : State)
    (hok : ((p.run s).2).hasError = false)
    (hfix : ((p.run s).1).nextState = s) :
    ∀ (fuel : Nat) (acc : List T), manyLoop p fuel s acc = none := by
  rcases hrun : p.run s with ⟨res, err⟩
  rw [hrun] at hok hfix
  simp only [Prod.fst, Prod.snd] at hok hfix
  intro fuel
  induction fuel with
  | zero => intro acc; rw [manyLoop_eq]; simp [hrun, hok]
  | succ k ih =>
      intro acc
      rw [manyLoop_eq]
      simp only [hrun, hok, Bool.false_eq_true, if_false, hfix]
      exact ih _

/-- C9: Many0 terminates from every state when every successful run of p
strictly increases the cursor offset (together with the §3 cursor
invariants that the offset stays within the input and the shared input is
never replaced): any fuel beyond the remaining input length suffices.
Without that precondition it need not terminate: whenever p can succeed
while leaving the state exactly where it was — a zero-width success, as
Optional permits — the repetition loop never exits, since it only stops
when p fails, and Many0 returns nothing for any fuel. -/
theorem c9_many0_termination (T : Type) [GoZero T] (label : String) (p : GoParser T) :
    ((∀ s' : State, ((p.run s').2).hasError = false →
        s'.offset < ((p.run s').1).nextState.offset ∧
        ((p.run s').1).nextState.offset ≤ s'.input.length ∧
        ((p.run s').1).nextState.input = s'.input) →
      ∀ (fuel : Nat) (s : State), s.input.length - s.offset < fuel →
        (Many0Run label p fuel s).isSome = true) ∧
    (∀ s : State, ((p.run s).2).hasError = false → ((p.run s).1).nextState = s →
      ∀ fuel : Nat, Many0Run label p fuel s = none) := by
  constructor
  · intro hadv fuel s h
    have hm := manyLoop_terminates T p hadv fuel s [] h
    simp only [Many0Run]
    cases hml : manyLoop p fuel s [] with
    | none => rw [hml] at hm; simp at hm
    | some v => simp
  · intro s h1 h2 fuel
    simp only [Many0Run, manyLoop_diverges T p s h1 h2 fuel []]

/-- Every success of strictAdvanceP advances the offset by one, stays
within the input and keeps the input unchanged. -/
theorem strictAdvanceP_advances :
    ∀ s' : State, ((strictAdvanceP.run s').2).hasError = false →
      s'.offset < ((strictAdvanceP.run s').1).nextState.offset ∧
      ((strictAdvanceP.run s').1).nextState.offset ≤ s'.input.length ∧
      ((strictAdvanceP.run s').1).nextState.input = s'.input := by
  intro s'
  by_cases h : s'.offset < s'.input.length
  · intro _
    simp [strictAdvanceP, h]
    omega
  · simp [strictAdvanceP, h]

/-- Witness for C9: Many0 of the one-code-point parser finishes on aaa with
fuel 4, while Many0 of Optional(x) — which succeeds without moving from the
zero state — returns nothing at fuel 7 (as at every other fuel). -/
theorem c9_many0_termination_witness :
    (Many0Run "many0" strictAdvanceP 4 c9state).isSome = true ∧
    ((Optional "optional x" (RuneParser "x" 'x')).run zeroState).2.hasError = false ∧
    ((Optional "optional x" (RuneParser "x" 'x')).run zeroState).1.nextState = zeroState ∧
    Many0Run "many0 of optional" (Optional "optional x" (RuneParser "x" 'x')) 7 zeroState = none :=
  ⟨(c9_many0_termination Char "many0" strictAdvanceP).1 strictAdvanceP_advances 4 c9state
     (by decide),
   by decide, by decide,
   (c9_many0_termination Char "many0 of optional"
     (Optional "optional x" (RuneParser "x" 'x'))).2 zeroState (by decide) (by decide) 7⟩

/-- One-step unfolding of the ManyTill loop, proved by cases on the fuel so
later proofs can rewrite one iteration at a time. -/
theorem manyTillLoop_eq (A B : Type) (p : PParser A) (endp : PParser B)
    (ip : Position) (fuel : Nat) (s : State) (ret : List A) :
    manyTillLoop p endp ip fuel s ret =
      (if s.InBounds s.offset then
        match fuel with
        | 0 => none
        | fuel + 1 =>
            let cp := s.Save
            let (s1, _, endErr) := endp.run s
            if !endErr.hasError then
              let s2 := s1.Rollback cp
              some (s2, ⟨ret, s2, ⟨cp, NewPositionFromState s2⟩⟩, noError)
            else
              let (s2, res, pErr) := p.run s1
              if pErr.hasError then
                let s3 := s2.Rollback cp
                some (s3, zeroResult,
                  .mk "ManyTill parser failed." pErr.expected pErr.got
                    pErr.snippet pErr.position (some pErr))
              else
                manyTillLoop p endp ip fuel res.nextState (ret ++ [res.value])
      else
        some (s, ⟨ret, s, ⟨ip, NewPositionFromState s⟩⟩, noError)) := by
  cases fuel <;> rfl

/-- C10: once the cursor is at (or past) the end of the input, the
ManyTill loop stops at its bounds check and succeeds with whatever p
results it accumulated — it does not fail for never having found the
terminator; concretely, letters-until-semicolon on aa, which ends without a
semicolon, succeeds with both letters and the cursor at end of input. -/
theorem c10_manytill_eof :
    (∀ (A B : Type) (p : PParser A) (endp : PParser B) (ip : Position)
        (fuel : Nat) (s : State) (ret : List A),
      s.InBounds s.offset = false →
      manyTillLoop p endp ip fuel s ret =
        some (s, ⟨ret, s, ⟨ip, NewPositionFromState s⟩⟩, noError)) ∧
    ManyTill "letters until semicolon" (pCharP 'a') (pCharP ';') 5
        (NewState "aa".toList ⟨0, 1, 1⟩) =
      some (⟨"aa".toList, 2, 1, 3, [0]⟩,
        ⟨['a', 'a'], ⟨"aa".toList, 2, 1, 3, [0]⟩, ⟨⟨0, 1, 1⟩, ⟨2, 1, 3⟩⟩⟩, noError) := by
  constructor
  · intro A B p endp ip fuel s ret h
    rw [manyTillLoop_eq]
    simp [h]
  · rfl

/-- Witness for C10: the loop applied directly to a cursor already at end
of input returns the accumulated values unchanged. -/
theorem c10_manytill_eof_witness :
    manyTillLoop (pCharP 'a') (pCharP ';') ⟨0, 1, 1⟩ 3 c10endState ['a', 'a'] =
      some (c10endState, ⟨['a', 'a'], c10endState, ⟨⟨0, 1, 1⟩, NewPositionFromState c10endState⟩⟩,
        noError) :=
  c10_manytill_eof.1 Char Char (pCharP 'a') (pCharP ';') ⟨0, 1, 1⟩ 3 c10endState ['a', 'a']
    (by decide)

/-- C6: while the cursor is in bounds, ManyTill probes end under a saved
checkpoint; the moment end matches, the probe is rolled back and the loop
succeeds with the p results accumulated so far and a next state whose
offset, line and column equal the pre-probe cursor — end is left
unconsumed for the caller.  And whenever end has not matched and p fails,
the loop fails, wrapping p's error as the cause of its own. -/
theorem c6_manytill_contract (A B : Type) (p : PParser A) (endp : PParser B)
    (ip : Position) (fuel : Nat) (s : State) (ret : List A) :
    (s.InBounds s.offset = true →
      ((endp.run s).2.2).hasError = false →
      manyTillLoop p endp ip (fuel + 1) s ret =
        some (((endp.run s).1).Rollback s.Save,
          ⟨ret, ((endp.run s).1).Rollback s.Save,
            ⟨s.Save, NewPositionFromState (((endp.run s).1).Rollback s.Save)⟩⟩,
          noError) ∧
      (((endp.run s).1).Rollback s.Save).offset = s.offset ∧
      (((endp.run s).1).Rollback s.Save).line = s.line ∧
      (((endp.run s).1).Rollback s.Save).column = s.column) ∧
    (s.InBounds s.offset = true →
      ((endp.run s).2.2).hasError = true →
      ((p.run ((endp.run s).1)).2.2).hasError = true →
      manyTillLoop p endp ip (fuel + 1) s ret =
        some (((p.run ((endp.run s).1)).1).Rollback s.Save, zeroResult,
          .mk "ManyTill parser failed." ((p.run ((endp.run s).1)).2.2).expected
            ((p.run ((endp.run s).1)).2.2).got ((p.run ((endp.run s).1)).2.2).snippet
            ((p.run ((endp.run s).1)).2.2).position
            (some ((p.run ((endp.run s).1)).2.2)))) := by
  rcases he : endp.run s with ⟨s1, er, ee⟩
  rcases hp : p.run s1 with ⟨s2, rr, pe⟩
  constructor
  · intro hin hee
    simp only [Prod.fst, Prod.snd] at hee
    refine ⟨?_, rfl, rfl, rfl⟩
    rw [manyTillLoop_eq]
    simp [hin, he, hee]
  · intro hin hee hpe
    simp only [Prod.fst, Prod.snd] at hee hpe
    rw [manyTillLoop_eq]
    simp [hin, he, hee, hp, hpe]

/-- Witness for C6: on ;x the probe of the semicolon terminator succeeds
and is rolled back, the loop succeeding with the accumulated list and the
cursor fields unchanged; on zx the terminator probe fails, p fails, and the
loop fails with p's error chained as cause. -/
theorem c6_manytill_contract_witness :
    (((pCharP ';').run c6aState).2.2).hasError = false ∧
    manyTillLoop (pCharP 'a') (pCharP ';') ⟨0, 1, 1⟩ 4 c6aState ['a'] =
      some ((((pCharP ';').run c6aState).1).Rollback c6aState.Save,
        ⟨['a'], (((pCharP ';').run c6aState).1).Rollback c6aState.Save,
          ⟨c6aState.Save,
            NewPositionFromState ((((pCharP ';').run c6aState).1).Rollback c6aState.Save)⟩⟩,
        noError) ∧
    manyTillLoop (pCharP 'a') (pCharP ';') ⟨0, 1, 1⟩ 4 c6bState [] =
      some ((((pCharP 'a').run (((pCharP ';').run c6bState).1)).1).Rollback c6bState.Save,
        zeroResult,
        .mk "ManyTill parser failed."
          (((pCharP 'a').run (((pCharP ';').run c6bState).1)).2.2).expected
          (((pCharP 'a').run (((pCharP ';').run c6bState).1)).2.2).got
          (((pCharP 'a').run (((pCharP ';').run c6bState).1)).2.2).snippet
          (((pCharP 'a').run (((pCharP ';').run c6bState).1)).2.2).position
          (some (((pCharP 'a').run (((pCharP ';').run c6bState).1)).2.2))) :=
  ⟨by decide,
   ((c6_manytill_contract Char Char (pCharP 'a') (pCharP ';') ⟨0, 1, 1⟩ 3 c6aState ['a']).1
     (by decide) (by decide)).1,
   (c6_manytill_contract Char Char (pCharP 'a') (pCharP ';') ⟨0, 1, 1⟩ 3 c6bState []).2
     (by decide) (by decide) (by decide)⟩

/-- Unfolding one layer of the fuel-indexed recursive grammar. -/
theorem exprGrammar_succ (n : Nat) :
    exprGrammar (n + 1) =
      Lazy "paren expr" (fun _ =>
        Or "paren expression"
          [letterX, Between "in parens" lparenP (exprGrammar n) rparenP]) := rfl

/-- Running a Lazy parser runs the factory's parser. -/
theorem Lazy_run (l : String) (f : Unit → GoParser T) (s : State) :
    (Lazy l f).run s = (f ()).run s := rfl

/-- Between succeeds when open, content and close succeed in sequence,
yielding content's value, close's next state and the span from the starting
position to close's end. -/
theorem between_success {a a1 b b1 : State} {o c r : Char} {sp1 sp2 sp3 : Span}
    (g : GoParser Char)
    (hopen : lparenP.run a = (⟨o, a1, sp1⟩, noError))
    (hcontent : g.run a1 = (⟨c, b, sp2⟩, noError))
    (hclose : rparenP.run b = (⟨r, b1, sp3⟩, noError)) :
    (Between "in parens" lparenP g rparenP).run a =
      (⟨c, b1, ⟨NewPositionFromState a, NewPositionFromState b1⟩⟩, noError) := by
  simp [Between, KeepRight, KeepLeft, Then, hopen, hcontent, hclose]

/-- One step of the recursive grammar at an opening parenthesis whose
content parse succeeds: the letter alternative fails, Between wraps the
content's success. -/
theorem c8_step_success {a a1 b b1 : State} {o c r : Char}
    {sp1 sp2 sp3 : Span} {rz : GoResult Char} {eL : GoError}
    (g : GoParser Char)
    (hletter : letterX.run a = (rz, eL)) (hLerr : eL.hasError = true)
    (hopen : lparenP.run a = (⟨o, a1, sp1⟩, noError))
    (hcontent : g.run a1 = (⟨c, b, sp2⟩, noError))
    (hclose : rparenP.run b = (⟨r, b1, sp3⟩, noError)) :
    (Or "paren expression" [letterX, Between "in parens" lparenP g rparenP]).run a =
      (⟨c, b1, ⟨NewPositionFromState a, NewPositionFromState b1⟩⟩, noError) := by
  have hB := between_success g hopen hcontent hclose
  simp only [Or]
  rw [orLoop_cons_fail Char letterX _ a noError (by rw [hletter]; simpa using hLerr)]
  rw [orLoop_cons_success Char _ [] a _ (by rw [hB]; simp)]
  rw [hB]

/-- One step of the recursive grammar at an opening parenthesis whose
content parse fails: every wrapper re-wraps the content error's expected,
got and position, and the final Or failure copies them. -/
theorem c8_step_fail {a a1 : State} {o : Char} {sp1 : Span}
    {rz rz2 : GoResult Char} {eL e : GoError}
    (g : GoParser Char)
    (hletter : letterX.run a = (rz, eL)) (hLerr : eL.hasError = true)
    (hopen : lparenP.run a = (⟨o, a1, sp1⟩, noError))
    (hcontent : g.run a1 = (rz2, e)) (he : e.hasError = true) :
    (Or "paren expression" [letterX, Between "in parens" lparenP g rparenP]).run a =
      (zeroResult,
        .mk "Or combinator failed" e.expected e.got (snippetStr a) e.position none) := by
  have hB : (Between "in parens" lparenP (g : GoParser Char) rparenP).run a =
      (zeroResult, .mk "Between combinator failed." e.expected e.got "" e.position none) := by
    simp [Between, KeepRight, KeepLeft, Then, hopen, hcontent, he]
  simp only [Or]
  rw [orLoop_cons_fail Char letterX _ a noError (by rw [hletter]; simpa using hLerr)]
  rw [orLoop_cons_fail Char _ [] a _ (by rw [hB]; simp)]
  simp [orLoop, hB]

/-- One step of the recursive grammar at a position where neither the
letter nor the opening parenthesis matches: the Or failure copies the open
parser's error fields. -/
theorem c8_step_fail_open {a : State} {rz rz2 : GoResult Char} {eL eO : GoError}
    (g : GoParser Char)
    (hletter : letterX.run a = (rz, eL)) (hLerr : eL.hasError = true)
    (hopen : lparenP.run a = (rz2, eO)) (hOerr : eO.hasError = true) :
    (Or "paren expression" [letterX, Between "in parens" lparenP g rparenP]).run a =
      (zeroResult,
        .mk "Or combinator failed" eO.expected eO.got (snippetStr a) eO.position none) := by
  have hB : (Between "in parens" lparenP (g : GoParser Char) rparenP).run a =
      (zeroResult, .mk "Between combinator failed." eO.expected eO.got "" eO.position none) := by
    simp [Between, KeepRight, KeepLeft, Then, hopen, hOerr]
  simp only [Or]
  rw [orLoop_cons_fail Char letterX _ a noError (by rw [hletter]; simpa using hLerr)]
  rw [orLoop_cons_fail Char _ [] a _ (by rw [hB]; simp)]
  simp [orLoop, hB]

/-- Depth-1 layer of the (((x))) run: at offset 3 the letter matches at
once, for every remaining budget. -/
theorem c8_level3 (n : Nat) :
    (exprGrammar (n + 1)).run (c8tState 3) =
      (⟨'x', c8tState 4, ⟨⟨3, 1, 4⟩, ⟨4, 1, 5⟩⟩⟩, noError) := by
  rw [exprGrammar_succ n, Lazy_run]
  simp only [Or]
  rw [orLoop_cons_success Char letterX _ _ noError (by decide)]
  rfl

/-- Depth-2 layer of the (((x))) run: at offset 2 one pair of parentheses
wraps the letter. -/
theorem c8_level2 (n : Nat) :
    (exprGrammar (n + 2)).run (c8tState 2) =
      (⟨'x', c8tState 5, ⟨⟨2, 1, 3⟩, ⟨5, 1, 6⟩⟩⟩, noError) := by
  rw [exprGrammar_succ (n + 1), Lazy_run]
  exact c8_step_success (exprGrammar (n + 1)) rfl (by decide) rfl (c8_level3 n) rfl

/-- Depth-3 layer of the (((x))) run: at offset 1 two pairs wrap the
letter. -/
theorem c8_level1 (n : Nat) :
    (exprGrammar (n + 3)).run (c8tState 1) =
      (⟨'x', c8tState 6, ⟨⟨1, 1, 2⟩, ⟨6, 1, 7⟩⟩⟩, noError) := by
  rw [exprGrammar_succ (n + 2), Lazy_run]
  exact c8_step_success (exprGrammar (n + 2)) rfl (by decide) rfl (c8_level2 n) rfl

/-- Depth-4 layer of the (((x))) run: the full input parses to x for every
budget of at least four. -/
theorem c8_level0 (n : Nat) :
    (exprGrammar (n + 4)).run (c8tState 0) =
      (⟨'x', c8tState 7, ⟨⟨0, 1, 1⟩, ⟨7, 1, 8⟩⟩⟩, noError) := by
  rw [exprGrammar_succ (n + 3), Lazy_run]
  exact c8_step_success (exprGrammar (n + 3)) rfl (by decide) rfl (c8_level1 n) rfl

/-- Depth-1 layer of the ((y)) run: at offset 2 the letter sees y and the
open parenthesis sees y, so the grammar fails without recursing. -/
theorem c8_fail2 (n : Nat) :
    (exprGrammar (n + 1)).run (c8uState 2) =
      (zeroResult,
        .mk "Or combinator failed" "(" "y" (snippetStr (c8uState 2)) ⟨2, 1, 3⟩ none) := by
  rw [exprGrammar_succ n, Lazy_run]
  exact c8_step_fail_open (exprGrammar n) rfl (by decide) rfl (by decide)

/-- Depth-2 layer of the ((y)) run: the inner failure's expected, got and
position survive one wrapping. -/
theorem c8_fail1 (n : Nat) :
    (exprGrammar (n + 2)).run (c8uState 1) =
      (zeroResult,
        .mk "Or combinator failed" "(" "y" (snippetStr (c8uState 1)) ⟨2, 1, 3⟩ none) := by
  rw [exprGrammar_succ (n + 1), Lazy_run]
  exact c8_step_fail (exprGrammar (n + 1)) rfl (by decide) rfl (c8_fail2 n) (by decide)

/-- Depth-3 layer of the ((y)) run: the whole input is rejected with the
failure positioned at the y. -/
theorem c8_fail0 (n : Nat) :
    (exprGrammar (n + 3)).run (c8uState 0) =
      (zeroResult,
        .mk "Or combinator failed" "(" "y" (snippetStr (c8uState 0)) ⟨2, 1, 3⟩ none) := by
  rw [exprGrammar_succ (n + 2), Lazy_run]
  exact c8_step_fail (exprGrammar (n + 2)) rfl (by decide) rfl (c8_fail1 n) (by decide)

/-- C8: the self-referential grammar expr := letter | LPAREN expr RPAREN
built through Lazy terminates: with any factory-unfolding budget of at
least four — the quantifier over n states that no further budget is
consumed, i.e. the recursion depth is bounded by the input's nesting — the
run on (((x))) yields x consuming the whole input, and the run on ((y))
terminates with an error positioned at the y.  Lazy itself applies its
factory only inside run, so building the grammar value performs no
recursion. -/
theorem c8_lazy_recursive_grammar (n : Nat) :
    (exprGrammar (n + 4)).run (NewState "(((x)))".toList ⟨0, 1, 1⟩) =
      (⟨'x', ⟨"(((x)))".toList, 7, 1, 8, [0]⟩, ⟨⟨0, 1, 1⟩, ⟨7, 1, 8⟩⟩⟩, noError) ∧
    ((exprGrammar (n + 3)).run (NewState "((y))".toList ⟨0, 1, 1⟩)).2.hasError = true ∧
    (exprGrammar (n + 3)).run (NewState "((y))".toList ⟨0, 1, 1⟩) =
      (zeroResult, .mk "Or combinator failed" "(" "y" "((y))" ⟨2, 1, 3⟩ none) := by
  have h1 : NewState "(((x)))".toList ⟨0, 1, 1⟩ = c8tState 0 := rfl
  have h2 : NewState "((y))".toList ⟨0, 1, 1⟩ = c8uState 0 := rfl
  have h3 : snippetStr (c8uState 0) = "((y))" := rfl
  refine ⟨?_, ?_, ?_⟩
  · rw [h1]; exact c8_level0 n
  · rw [h2, c8_fail0 n]; rfl
  · rw [h2, c8_fail0 n, h3]

end Pcom
